import Mathlib

/-!
Verification development for the application review tool
(`tools/application_review.py`).

The tool is embedded shallowly: the filesystem seen by one review run is a
`FileSystem` value (root path string, regular files with their text and the
result of parsing them, directories, and resolvability of the two optional
vendor modules).  Python text processing is modelled by executable functions
over `String` / `List Char`; `ast.parse` is modelled by the `PyAst` summary
carried by each file (module docstring presence, exception handlers in walk
order, function definitions in walk order), since the checks only consume
those pieces of the syntax tree.
-/

namespace AppReview

/-! ### String helpers (models of the Python `str` operations used) -/

/-- `pre` is a prefix of `cs` (model of `str.startswith` on char lists). -/
def charsHavePre : List Char → List Char → Bool
  | _, [] => true
  | [], _ :: _ => false
  | a :: as, b :: bs => a == b && charsHavePre as bs

/-- `needle` occurs as a contiguous run inside `hay`
(model of Python `needle in hay`). -/
def charsContain (needle : List Char) : List Char → Bool
  | [] => charsHavePre [] needle
  | c :: rest => charsHavePre (c :: rest) needle || charsContain needle rest

/-- Model of Python `sub in s`. -/
def strContains (s sub : String) : Bool :=
  charsContain sub.data s.data

/-- Model of `str.startswith`. -/
def strStartsWith (s pre : String) : Bool :=
  charsHavePre s.data pre.data

/-- Model of `str.endswith`. -/
def strEndsWith (s suf : String) : Bool :=
  charsHavePre s.data.reverse suf.data.reverse

/-- Model of `str.lower` (ASCII, as used by the tool). -/
def lowerStr (s : String) : String :=
  ⟨s.data.map Char.toLower⟩

/-- Python whitespace characters stripped by `str.strip`. -/
def isPySpace (c : Char) : Bool :=
  ([' ', '\t', '\n', '\r', '\x0b', '\x0c'] : List Char).contains c

/-- Model of `str.strip()`. -/
def strTrim (s : String) : String :=
  ⟨((s.data.dropWhile isPySpace).reverse.dropWhile isPySpace).reverse⟩

/-- Helper for `splitLines`: accumulate the current line (reversed). -/
def splitLinesAux : List Char → List Char → List (List Char)
  | acc, [] => [acc.reverse]
  | acc, c :: rest =>
    if c == '\n' then acc.reverse :: splitLinesAux [] rest
    else splitLinesAux (c :: acc) rest

/-- Model of Python `content.split('\n')`. -/
def splitLines (s : String) : List String :=
  (splitLinesAux [] s.data).map (fun l => ⟨l⟩)

/-- Join strings with a separator (model of `sep.join(parts)`). -/
def joinSep (sep : String) : List String → String
  | [] => ""
  | [x] => x
  | x :: y :: rest => x ++ sep ++ joinSep sep (y :: rest)

/-- Join path components with the POSIX separator. -/
def joinParts : List String → String := joinSep "/"

/-! ### Data model -/

/-- One exception handler found by walking the syntax tree:
whether it declares an exception type (`node.type is not None`) and its
1-based line number. -/
structure ExcHandler where
  hasType : Bool
  lineno : Nat
deriving DecidableEq, Repr

/-- One function definition found by walking the syntax tree. `args` records,
per positional argument, whether it carries an annotation. -/
structure FuncDef where
  name : String
  lineno : Nat
  args : List Bool
  has_returns : Bool
  has_docstring : Bool
deriving DecidableEq, Repr

/-- Summary of `ast.parse` output: exactly the tree data the checks read. -/
structure PyAst where
  has_module_docstring : Bool
  handlers : List ExcHandler
  funcs : List FuncDef
deriving DecidableEq, Repr

/-- One regular file under the scan root.  `parts` is the path relative to the
root, as components.  `content = none` models a read failure; `ast = none`
models a parse failure (`SyntaxError`). -/
structure SrcFile where
  parts : List String
  content : Option String
  ast : Option PyAst
deriving DecidableEq, Repr

/-- The directory tree a single review run observes, plus resolvability of the
two optional vendor packages in the host environment. -/
structure FileSystem where
  root : String
  root_exists : Bool
  files : List SrcFile
  dirs : List (List String)
  hailo_importable : Bool
  hailo_apps_importable : Bool
deriving DecidableEq, Repr

/-- An issue found during review (`Issue` dataclass). -/
structure Issue where
  severity : String
  category : String
  file_path : String
  line_number : Option Nat
  description : String
  recommendation : Option String := none
  code_snippet : Option String := none
deriving DecidableEq, Repr

/-- Complete review result (`ReviewResult` dataclass); the two count mappings
are insertion-ordered key/value lists, as Python dicts are. -/
structure ReviewResult where
  application_name : String
  total_issues : Nat
  issues_by_severity : List (String × Nat)
  issues_by_category : List (String × Nat)
  issues : List Issue
  summary : String
  recommendations : List String
deriving DecidableEq, Repr

/-! ### Paths and discovery -/

/-- The file's name (final path component). -/
def fileName (f : SrcFile) : String :=
  (f.parts.getLast?).getD ""

/-- `str(py_file.relative_to(self.app_path))`. -/
def relPath (f : SrcFile) : String :=
  joinParts f.parts

/-- `str(py_file)`: the absolute path string. -/
def pathStr (root : String) (f : SrcFile) : String :=
  root ++ "/" ++ relPath f

/-- `(self.app_path / <parts>).exists()`: nothing exists under a nonexistent
root; otherwise the path may be a directory or a regular file. -/
def pathExists (fs : FileSystem) (parts : List String) : Bool :=
  fs.root_exists && (fs.dirs.contains parts || fs.files.any (fun f => f.parts == parts))

/-- `_discover_files`, Python-file part: `rglob("*.py")` excluding any path
containing `__pycache__`; an empty inventory if the root does not exist. -/
def pythonFiles (fs : FileSystem) : List SrcFile :=
  if fs.root_exists then
    fs.files.filter (fun f =>
      strEndsWith (fileName f) ".py" && !(strContains (pathStr fs.root f) "__pycache__"))
  else []

/-- `_discover_files`, config part: `*.yaml`, then `*.yml`, then `*.json`
excluding paths containing `database.json`. -/
def configFiles (fs : FileSystem) : List SrcFile :=
  if fs.root_exists then
    fs.files.filter (fun f => strEndsWith (fileName f) ".yaml") ++
    fs.files.filter (fun f => strEndsWith (fileName f) ".yml") ++
    fs.files.filter (fun f =>
      strEndsWith (fileName f) ".json" && !(strContains (pathStr fs.root f) "database.json"))
  else []

/-! ### Rule engine -/

/-- Run a per-element emitter over a list, concatenating the issues in
traversal order (the `for` loops appending to `self.issues`). -/
def emitAll {α β : Type} (g : α → List β) : List α → List β
  | [] => []
  | x :: rest => g x ++ emitAll g rest

/-- Run a per-line emitter over `enumerate(lines, start)`. -/
def forLines {β : Type} (g : Nat → String → List β) : Nat → List String → List β
  | _, [] => []
  | i, ln :: rest => g i ln ++ forLines g (i + 1) rest

/-- Issue emitted by `_check_imports`. -/
def importTypoIssue (f : SrcFile) (i : Nat) (line : String) : Issue :=
  { severity := "CRITICAL", category := "BUG", file_path := relPath f,
    line_number := some i,
    description := "Typo in module name: 'coffe_master' should be 'coffee_master'",
    recommendation := some "Fix import to use correct module name",
    code_snippet := some (strTrim line) }

/-- Per-line body of `_check_imports`. -/
def importLine (root : String) (f : SrcFile) (i : Nat) (line : String) : List Issue :=
  if (strContains line "import" || strContains line "from") &&
      strContains line "coffe_master" && strContains (pathStr root f) "coffee_master" then
    [importTypoIssue f i line]
  else []

/-- `_check_imports` for one file (read failures are caught and skipped). -/
def checkImportsFile (root : String) (f : SrcFile) : List Issue :=
  match f.content with
  | none => []
  | some c => forLines (importLine root f) 1 (splitLines c)

/-- `_check_imports`. -/
def checkImports (fs : FileSystem) : List Issue :=
  emitAll (checkImportsFile fs.root) (pythonFiles fs)

/-- Issue emitted by `_check_hardcoded_paths`. -/
def hardcodedPathIssue (f : SrcFile) (i : Nat) (line : String) : Issue :=
  { severity := "CRITICAL", category := "BUG", file_path := relPath f,
    line_number := some i,
    description := "Hardcoded absolute path detected",
    recommendation := some "Use relative paths with Path(__file__).parent or os.path.join",
    code_snippet := some (strTrim line) }

/-- A quote character, i.e. the regex class `["']`. -/
def isQuoteCh (c : Char) : Bool := c == '"' || c == '\''

/-- The given literal immediately followed by a quote character. -/
def litThenQuote (lit : List Char) (cs : List Char) : Bool :=
  charsHavePre cs lit &&
    (match cs.drop lit.length with
     | c :: _ => isQuoteCh c
     | [] => false)

/-- Matches `[^/]*["']` after at least one non-slash character was consumed. -/
def tmpTailQuote : List Char → Bool
  | [] => false
  | c :: rest => isQuoteCh c || (c != '/' && tmpTailQuote rest)

/-- Matches `/tmp/[^/]+["']`. -/
def tmpMatch (cs : List Char) : Bool :=
  charsHavePre cs "/tmp/".data &&
    (match cs.drop 5 with
     | [] => false
     | c :: rest => c != '/' && tmpTailQuote rest)

/-- The regex `["'](/home|/Users|C:\\|/tmp/[^/]+)["']` matches at the head. -/
def pathPatternAt : List Char → Bool
  | [] => false
  | c :: rest =>
    isQuoteCh c &&
      (litThenQuote "/home".data rest || litThenQuote "/Users".data rest ||
        litThenQuote "C:\\".data rest || tmpMatch rest)

/-- `path_pattern.search(line)`: the pattern matches somewhere in the line. -/
def pathPatternSearch : List Char → Bool
  | [] => false
  | c :: rest => pathPatternAt (c :: rest) || pathPatternSearch rest

/-- Per-line body of `_check_hardcoded_paths`. -/
def hardcodedLine (root : String) (f : SrcFile) (i : Nat) (line : String) : List Issue :=
  if pathPatternSearch line.data && !(strContains (lowerStr (pathStr root f)) "test") &&
      !(strContains line "os.path.join") && !(strContains line "Path(") then
    [hardcodedPathIssue f i line]
  else []

/-- `_check_hardcoded_paths` for one file. -/
def checkHardcodedPathsFile (root : String) (f : SrcFile) : List Issue :=
  match f.content with
  | none => []
  | some c => forLines (hardcodedLine root f) 1 (splitLines c)

/-- `_check_hardcoded_paths`. -/
def checkHardcodedPaths (fs : FileSystem) : List Issue :=
  emitAll (checkHardcodedPathsFile fs.root) (pythonFiles fs)

/-- Issue emitted by `_check_error_handling`. -/
def bareExceptIssue (f : SrcFile) (lineno : Nat) : Issue :=
  { severity := "HIGH", category := "CODE_QUALITY", file_path := relPath f,
    line_number := some lineno,
    description := "Bare except clause detected",
    recommendation := some "Use specific exception types (e.g., except ValueError:)" }

/-- Per-handler body of `_check_error_handling`. -/
def bareExceptHandler (f : SrcFile) (h : ExcHandler) : List Issue :=
  if h.hasType then [] else [bareExceptIssue f h.lineno]

/-- `_check_error_handling` for one file: read and parse failures are caught
and skipped; otherwise one issue per untyped handler in walk order. -/
def checkErrorHandlingFile (f : SrcFile) : List Issue :=
  match f.content with
  | none => []
  | some _ =>
    match f.ast with
    | none => []
    | some a => emitAll (bareExceptHandler f) a.handlers

/-- `_check_error_handling`. -/
def checkErrorHandling (fs : FileSystem) : List Issue :=
  emitAll checkErrorHandlingFile (pythonFiles fs)

/-- `'import logging' in content or 'from logging' in content`. -/
def hasLoggingIn (content : String) : Bool :=
  strContains content "import logging" || strContains content "from logging"

/-- Issue emitted by `_check_logging`. -/
def printIssue (f : SrcFile) (hasLog : Bool) (i : Nat) (line : String) : Issue :=
  { severity := if hasLog then "MEDIUM" else "HIGH",
    category := "CODE_QUALITY", file_path := relPath f,
    line_number := some i,
    description := "Print statement found instead of logging",
    recommendation := some "Replace with logger.info/debug/error",
    code_snippet := some (strTrim line) }

/-- Per-line body of `_check_logging`. -/
def printLine (root : String) (f : SrcFile) (hasLog : Bool) (i : Nat) (line : String) :
    List Issue :=
  if strStartsWith (strTrim line) "print(" &&
      !(strContains (lowerStr (pathStr root f)) "test") then
    [printIssue f hasLog i line]
  else []

/-- `_check_logging` for one file. -/
def checkLoggingFile (root : String) (f : SrcFile) : List Issue :=
  match f.content with
  | none => []
  | some c => forLines (printLine root f (hasLoggingIn c)) 1 (splitLines c)

/-- `_check_logging`. -/
def checkLogging (fs : FileSystem) : List Issue :=
  emitAll (checkLoggingFile fs.root) (pythonFiles fs)

/-- Issue emitted by `_check_type_hints`. -/
def typeHintIssue (f : SrcFile) (fd : FuncDef) : Issue :=
  { severity := "LOW", category := "CODE_QUALITY", file_path := relPath f,
    line_number := some fd.lineno,
    description := "Function '" ++ fd.name ++ "' missing type hints",
    recommendation := some "Add type hints for parameters and return type" }

/-- Per-function body of `_check_type_hints`. -/
def typeHintFunc (root : String) (f : SrcFile) (fd : FuncDef) : List Issue :=
  if strContains (lowerStr (pathStr root f)) "test" || strStartsWith fd.name "_" then []
  else if !fd.has_returns && fd.args.length > 0 then
    if !(fd.args.any id) && !(fd.name == "__init__") then [typeHintIssue f fd] else []
  else []

/-- `_check_type_hints` for one file. -/
def checkTypeHintsFile (root : String) (f : SrcFile) : List Issue :=
  match f.content with
  | none => []
  | some _ =>
    match f.ast with
    | none => []
    | some a => emitAll (typeHintFunc root f) a.funcs

/-- `_check_type_hints`. -/
def checkTypeHints (fs : FileSystem) : List Issue :=
  emitAll (checkTypeHintsFile fs.root) (pythonFiles fs)

/-- Module-docstring issue emitted by `_check_docstrings`. -/
def moduleDocIssue (f : SrcFile) : Issue :=
  { severity := "LOW", category := "DOCUMENTATION", file_path := relPath f,
    line_number := some 1,
    description := "Module missing docstring",
    recommendation := some "Add module-level docstring" }

/-- Function-docstring issue emitted by `_check_docstrings`. -/
def funcDocIssue (f : SrcFile) (fd : FuncDef) : Issue :=
  { severity := "LOW", category := "DOCUMENTATION", file_path := relPath f,
    line_number := some fd.lineno,
    description := "Function '" ++ fd.name ++ "' missing docstring",
    recommendation := some "Add Google-style docstring" }

/-- Per-function body of `_check_docstrings`. -/
def docstringFunc (root : String) (f : SrcFile) (fd : FuncDef) : List Issue :=
  if strContains (lowerStr (pathStr root f)) "test" || strStartsWith fd.name "_" then []
  else if !fd.has_docstring then [funcDocIssue f fd] else []

/-- `_check_docstrings` for one file: the module docstring check, then every
function definition in walk order. -/
def checkDocstringsFile (root : String) (f : SrcFile) : List Issue :=
  match f.content with
  | none => []
  | some _ =>
    match f.ast with
    | none => []
    | some a =>
      (if !a.has_module_docstring && !(strContains (lowerStr (pathStr root f)) "test") then
        [moduleDocIssue f]
      else []) ++ emitAll (docstringFunc root f) a.funcs

/-- `_check_docstrings`. -/
def checkDocstrings (fs : FileSystem) : List Issue :=
  emitAll (checkDocstringsFile fs.root) (pythonFiles fs)

/-- Issue emitted by `_check_thread_safety`. -/
def threadSafetyIssue (f : SrcFile) : Issue :=
  { severity := "HIGH", category := "BUG", file_path := relPath f,
    line_number := none,
    description := "File I/O operations without thread-safety mechanisms",
    recommendation := some "Add threading.Lock for concurrent access" }

/-- `_check_thread_safety` for one file. -/
def checkThreadSafetyFile (root : String) (f : SrcFile) : List Issue :=
  match f.content with
  | none => []
  | some c =>
    if strContains c "open(" && strContains c "json.load" &&
        !(strContains c "threading.Lock") && !(strContains c "multiprocessing.Lock") &&
        (strContains (lowerStr (pathStr root f)) "database" ||
          strContains (lowerStr (pathStr root f)) "config") then
      [threadSafetyIssue f]
    else []

/-- `_check_thread_safety`. -/
def checkThreadSafety (fs : FileSystem) : List Issue :=
  emitAll (checkThreadSafetyFile fs.root) (pythonFiles fs)

/-- Issue emitted by `_check_configuration`. -/
def configValuesIssue (f : SrcFile) : Issue :=
  { severity := "MEDIUM", category := "ARCHITECTURE", file_path := relPath f,
    line_number := none,
    description := "Hardcoded configuration values",
    recommendation := some "Move tunable parameters to config.yaml" }

/-- Per-file body of `_check_configuration`. -/
def configValuesFile (f : SrcFile) : List Issue :=
  match f.content with
  | none => []
  | some c =>
    if (strContains c "LOITER_THRESHOLD" || strContains c "RESET_TIMEOUT") &&
        !(strContains c "config.yaml") then
      [configValuesIssue f]
    else []

/-- `_check_configuration`: only runs its file loop when no root-level
`config.yaml` exists. -/
def checkConfiguration (fs : FileSystem) : List Issue :=
  if pathExists fs ["config.yaml"] then []
  else emitAll configValuesFile (pythonFiles fs)

/-- Issue for a missing `tests/` directory. -/
def testsDirIssue : Issue :=
  { severity := "MEDIUM", category := "TESTING", file_path := "tests/",
    line_number := none,
    description := "No tests directory found",
    recommendation := some "Create tests directory with functional tests" }

/-- Issue for a `tests/` directory with no `test_*.py` files. -/
def noTestFilesIssue : Issue :=
  { severity := "MEDIUM", category := "TESTING", file_path := "tests/",
    line_number := none,
    description := "No test files found",
    recommendation := some "Add pytest test files" }

/-- `test_dir.glob("test_*.py")`: files directly inside `tests/` whose name
matches the pattern. -/
def testGlob (fs : FileSystem) : List SrcFile :=
  fs.files.filter (fun f =>
    match f.parts with
    | [d, n] => d == "tests" && strStartsWith n "test_" && strEndsWith n ".py"
    | _ => false)

/-- `_check_test_coverage`. -/
def checkTestCoverage (fs : FileSystem) : List Issue :=
  if !(pathExists fs ["tests"]) then [testsDirIssue]
  else if (testGlob fs).length == 0 then [noTestFilesIssue]
  else []

/-- Issue for a missing top-level `README.md`. -/
def readmeIssue : Issue :=
  { severity := "LOW", category := "DOCUMENTATION", file_path := "README.md",
    line_number := none,
    description := "Missing README.md",
    recommendation := some "Create README.md with usage instructions" }

/-- `_check_documentation`. -/
def checkDocumentation (fs : FileSystem) : List Issue :=
  if pathExists fs ["README.md"] then [] else [readmeIssue]

/-- Issue for an unresolvable `hailo` import. -/
def hailoIssue : Issue :=
  { severity := "CRITICAL", category := "ARCHITECTURE", file_path := "setup/installation",
    line_number := none,
    description := "Hailo library is imported but not available. This indicates a setup or installation issue.",
    recommendation := some "Install Hailo libraries: pip install hailort or follow Hailo installation guide" }

/-- Issue for an unresolvable `hailo_apps` import. -/
def hailoAppsIssue : Issue :=
  { severity := "CRITICAL", category := "ARCHITECTURE", file_path := "setup/installation",
    line_number := none,
    description := "hailo_apps package is imported but not available. This indicates a setup or installation issue.",
    recommendation := some "Install hailo_apps package or ensure PYTHONPATH is set correctly" }

/-- `_check_hailo_dependencies`: textual probes over the discovered Python
files (the loops stop at the first hit), then a resolvability probe against
the host environment. -/
def checkHailoDependencies (fs : FileSystem) : List Issue :=
  let found := (pythonFiles fs).any (fun f =>
    match f.content with
    | some c => strContains c "import hailo" || strContains c "from hailo"
    | none => false)
  let appsFound := (pythonFiles fs).any (fun f =>
    match f.content with
    | some c => strContains c "from hailo_apps" || strContains c "import hailo_apps"
    | none => false)
  (if found && !fs.hailo_importable then [hailoIssue] else []) ++
  (if appsFound && !fs.hailo_apps_importable then [hailoAppsIssue] else [])

/-! ### Aggregation -/

/-- `defaultdict(int)` increment: bump the key if present, else append it. -/
def tallyAdd : List (String × Nat) → String → List (String × Nat)
  | [], k => [(k, 1)]
  | (k', v) :: rest, k =>
    if k' == k then (k', v + 1) :: rest else (k', v) :: tallyAdd rest k

/-- Fold a key sequence into a count map, left to right. -/
def tallyFrom (acc : List (String × Nat)) : List String → List (String × Nat)
  | [] => acc
  | k :: rest => tallyFrom (tallyAdd acc k) rest

/-- Count occurrences of each key, keys in first-encounter order. -/
def tally (ks : List String) : List (String × Nat) :=
  tallyFrom [] ks

/-- `d.get(k, 0)`. -/
def dictGet : List (String × Nat) → String → Nat
  | [], _ => 0
  | (k', v) :: rest, k => if k' == k then v else dictGet rest k

/-- Sum of the values of a count map. -/
def sumVals : List (String × Nat) → Nat
  | [] => 0
  | kv :: rest => kv.2 + sumVals rest

/-- Split a character list at a separator character. -/
def splitOnCh (sep : Char) : List Char → List Char → List (List Char)
  | acc, [] => [acc.reverse]
  | acc, c :: rest =>
    if c == sep then acc.reverse :: splitOnCh sep [] rest
    else splitOnCh sep (c :: acc) rest

/-- `Path(app_path).name`: the last nonempty path component. -/
def pathName (root : String) : String :=
  (((splitOnCh '/' [] root.data).filter (fun l => !l.isEmpty)).getLast?.map
    (fun l => (⟨l⟩ : String))).getD ""

/-- `_generate_result`: counts, the priority-selected summary line, and the
fixed-order recommendation list. -/
def generateResult (root : String) (issues : List Issue) : ReviewResult :=
  let issues_by_severity := tally (issues.map (fun i => i.severity))
  let issues_by_category := tally (issues.map (fun i => i.category))
  let critical_count := dictGet issues_by_severity "CRITICAL"
  let high_count := dictGet issues_by_severity "HIGH"
  let summary :=
    if critical_count > 0 then
      "CRITICAL: " ++ toString critical_count ++
        " critical issues found. Immediate attention required."
    else if high_count > 0 then
      "WARNING: " ++ toString high_count ++ " high-priority issues found."
    else if issues.length > 0 then
      "Found " ++ toString issues.length ++ " issues, mostly code quality improvements."
    else "No issues found. Application looks good!"
  let recommendations :=
    (if critical_count > 0 then ["Fix all CRITICAL issues before deployment"] else []) ++
    (if dictGet issues_by_category "TESTING" > 0 then ["Improve test coverage"] else []) ++
    (if dictGet issues_by_category "DOCUMENTATION" > 0 then ["Add missing documentation"] else [])
  { application_name := pathName root
    total_issues := issues.length
    issues_by_severity := issues_by_severity
    issues_by_category := issues_by_category
    issues := issues
    summary := summary
    recommendations := recommendations }

/-- The full accumulated issue list: the eleven checks run in the order fixed
by `review`, each appending to the shared list. -/
def allIssues (fs : FileSystem) : List Issue :=
  checkImports fs ++ checkHardcodedPaths fs ++ checkErrorHandling fs ++
  checkLogging fs ++ checkTypeHints fs ++ checkDocstrings fs ++
  checkThreadSafety fs ++ checkConfiguration fs ++ checkTestCoverage fs ++
  checkDocumentation fs ++ checkHailoDependencies fs

/-- `ApplicationReviewer.review` for a fresh reviewer: discovery, the check
battery, then aggregation. -/
def review (fs : FileSystem) : ReviewResult :=
  generateResult fs.root (allIssues fs)

/-- Two successive review runs over the same unchanged directory contents
(`review_application` constructs a fresh reviewer for each run). -/
def reviewTwice (fs : FileSystem) : ReviewResult × ReviewResult :=
  (review fs, review fs)

/-! ### Reporter -/

/-- Python truthiness of an `Optional[int]` (`None` and `0` are falsy). -/
def truthyNum : Option Nat → Bool
  | none => false
  | some n => !(n == 0)

/-- Python truthiness of an `Optional[str]` (`None` and `""` are falsy). -/
def truthyText : Option String → Bool
  | none => false
  | some s => !(s == "")

/-- The lines `_format_text` appends for one issue. -/
def textIssueLines (i : Issue) : List String :=
  ["[" ++ i.severity ++ "] " ++ i.file_path] ++
  (if truthyNum i.line_number then
    ["  Line " ++ toString (i.line_number.getD 0) ++ ": " ++ i.description]
  else ["  " ++ i.description]) ++
  (if truthyText i.recommendation then ["  -> " ++ i.recommendation.getD ""] else []) ++
  [""]

/-- The line list built by `_format_text`. -/
def textLines (r : ReviewResult) : List String :=
  ["Application Review: " ++ r.application_name,
   (⟨List.replicate 60 '='⟩ : String),
   "Summary: " ++ r.summary,
   "",
   "Total Issues: " ++ toString r.total_issues,
   "  Critical: " ++ toString (dictGet r.issues_by_severity "CRITICAL"),
   "  High: " ++ toString (dictGet r.issues_by_severity "HIGH"),
   "  Medium: " ++ toString (dictGet r.issues_by_severity "MEDIUM"),
   "  Low: " ++ toString (dictGet r.issues_by_severity "LOW"),
   "",
   "Issues:",
   ""] ++ emitAll textIssueLines r.issues

/-- `_format_text`. -/
def formatText (r : ReviewResult) : String :=
  joinSep "\n" (textLines r)

/-- The lines `_format_markdown` appends for one issue. -/
def mdIssueLines (i : Issue) : List String :=
  ["#### " ++ i.file_path] ++
  (if truthyNum i.line_number then
    ["**Line " ++ toString (i.line_number.getD 0) ++ "**: " ++ i.description]
  else ["**" ++ i.description ++ "**"]) ++
  (if truthyText i.recommendation then
    ["- Recommendation: " ++ i.recommendation.getD ""]
  else []) ++
  (if truthyText i.code_snippet then
    ["```python\n" ++ i.code_snippet.getD "" ++ "\n```"]
  else []) ++
  [""]

/-- One severity group of `_format_markdown`: heading plus the issues of that
severity, or nothing when the group is empty. -/
def mdSection (r : ReviewResult) (severity : String) : List String :=
  let severity_issues := r.issues.filter (fun i => i.severity == severity)
  if severity_issues.isEmpty then []
  else ["### " ++ severity ++ " Issues", ""] ++ emitAll mdIssueLines severity_issues

/-- The fixed header of `_format_markdown` (title, summary, statistics). -/
def mdHeaderLines (r : ReviewResult) : List String :=
  ["# Application Review: " ++ r.application_name,
   "",
   "**Summary**: " ++ r.summary,
   "",
   "## Statistics",
   "",
   "- Total Issues: " ++ toString r.total_issues,
   "- Critical: " ++ toString (dictGet r.issues_by_severity "CRITICAL"),
   "- High: " ++ toString (dictGet r.issues_by_severity "HIGH"),
   "- Medium: " ++ toString (dictGet r.issues_by_severity "MEDIUM"),
   "- Low: " ++ toString (dictGet r.issues_by_severity "LOW"),
   "",
   "## Issues",
   ""]

/-- The trailing recommendations block of `_format_markdown`. -/
def mdRecLines (r : ReviewResult) : List String :=
  if r.recommendations.isEmpty then []
  else ["## Recommendations", ""] ++ r.recommendations.map (fun x => "- " ++ x) ++ [""]

/-- The line list built by `_format_markdown`: header, then one group per
severity in the order CRITICAL, HIGH, MEDIUM, LOW, then recommendations. -/
def mdLines (r : ReviewResult) : List String :=
  mdHeaderLines r ++
  emitAll (mdSection r) ["CRITICAL", "HIGH", "MEDIUM", "LOW"] ++
  mdRecLines r

/-- `_format_markdown`. -/
def formatMarkdown (r : ReviewResult) : String :=
  joinSep "\n" (mdLines r)

/-- JSON string escaping for the characters that can occur in the tool's
output (model of the `json` module's encoder). -/
def jsonEscChars : List Char → List Char
  | [] => []
  | c :: rest =>
    (if c == '"' then ['\\', '"']
     else if c == '\\' then ['\\', '\\']
     else if c == '\n' then ['\\', 'n']
     else if c == '\t' then ['\\', 't']
     else if c == '\r' then ['\\', 'r']
     else [c]) ++ jsonEscChars rest

/-- A JSON string literal. -/
def jStr (s : String) : String :=
  "\"" ++ (⟨jsonEscChars s.data⟩ : String) ++ "\""

/-- A JSON `str | null` value (`asdict` keeps `None` fields, serialized as
`null`). -/
def jTextOrNull : Option String → String
  | none => "null"
  | some s => jStr s

/-- A JSON `int | null` value. -/
def jNumOrNull : Option Nat → String
  | none => "null"
  | some n => toString n

/-- A severity/category count mapping as a JSON object, two-space indented one
level deep (as `json.dumps(..., indent=2)` lays it out). -/
def jDict (entries : List (String × Nat)) : String :=
  if entries.isEmpty then "\x7b\x7d"
  else
    "\x7b\n" ++
    joinSep ",\n" (entries.map (fun kv => "    " ++ jStr kv.1 ++ ": " ++ toString kv.2)) ++
    "\n  \x7d"

/-- One issue as a JSON object inside the `issues` array: `asdict` emits the
dataclass fields in declaration order. -/
def jIssue (i : Issue) : String :=
  "    \x7b\n" ++
  joinSep ",\n"
    ["      " ++ jStr "severity" ++ ": " ++ jStr i.severity,
     "      " ++ jStr "category" ++ ": " ++ jStr i.category,
     "      " ++ jStr "file_path" ++ ": " ++ jStr i.file_path,
     "      " ++ jStr "line_number" ++ ": " ++ jNumOrNull i.line_number,
     "      " ++ jStr "description" ++ ": " ++ jStr i.description,
     "      " ++ jStr "recommendation" ++ ": " ++ jTextOrNull i.recommendation,
     "      " ++ jStr "code_snippet" ++ ": " ++ jTextOrNull i.code_snippet] ++
  "\n    \x7d"

/-- The `issues` array. -/
def jIssues (l : List Issue) : String :=
  if l.isEmpty then "[]"
  else "[\n" ++ joinSep ",\n" (l.map jIssue) ++ "\n  ]"

/-- The `recommendations` array. -/
def jTextArr (l : List String) : String :=
  if l.isEmpty then "[]"
  else "[\n" ++ joinSep ",\n" (l.map (fun s => "    " ++ jStr s)) ++ "\n  ]"

/-- The structured encoding `json.dumps(asdict(result), indent=2)`: a
serialized object mirroring `ReviewResult`'s fields exactly, in declaration
order. -/
def reviewResultToJsonString (r : ReviewResult) : String :=
  "\x7b\n" ++
  joinSep ",\n"
    ["  " ++ jStr "application_name" ++ ": " ++ jStr r.application_name,
     "  " ++ jStr "total_issues" ++ ": " ++ toString r.total_issues,
     "  " ++ jStr "issues_by_severity" ++ ": " ++ jDict r.issues_by_severity,
     "  " ++ jStr "issues_by_category" ++ ": " ++ jDict r.issues_by_category,
     "  " ++ jStr "issues" ++ ": " ++ jIssues r.issues,
     "  " ++ jStr "summary" ++ ": " ++ jStr r.summary,
     "  " ++ jStr "recommendations" ++ ": " ++ jTextArr r.recommendations] ++
  "\n\x7d"

/-- `review_application`: run a review and encode it in the requested format;
any format other than `"json"` and `"markdown"` falls through to the plain
text encoding. -/
def review_application (fs : FileSystem) (output_format : String) : String :=
  let result := review fs
  if output_format == "json" then reviewResultToJsonString result
  else if output_format == "markdown" then formatMarkdown result
  else formatText result

/-! ### Generic lemmas about the traversal combinators -/

theorem mem_emitAll {α β : Type} {g : α → List β} {l : List α} {b : β}
    (h : b ∈ emitAll g l) : ∃ a, a ∈ l ∧ b ∈ g a := by
  induction l with
  | nil => simp [emitAll] at h
  | cons x rest ih =>
    simp only [emitAll, List.mem_append] at h
    rcases h with h | h
    · exact ⟨x, by simp, h⟩
    · obtain ⟨a, ha, hb⟩ := ih h
      exact ⟨a, by simp [ha], hb⟩

theorem mem_emitAll_of_mem {α β : Type} {g : α → List β} {l : List α} {a : α} {b : β}
    (hb : b ∈ g a) (ha : a ∈ l) : b ∈ emitAll g l := by
  induction l with
  | nil => simp at ha
  | cons x rest ih =>
    simp only [List.mem_cons] at ha
    rcases ha with rfl | ha
    · simp [emitAll, List.mem_append, hb]
    · simp [emitAll, List.mem_append, ih ha]

theorem mem_forLines {β : Type} {g : Nat → String → List β} {k : Nat} {ls : List String}
    {b : β} (h : b ∈ forLines g k ls) : ∃ j ln, b ∈ g j ln := by
  induction ls generalizing k with
  | nil => simp [forLines] at h
  | cons ln rest ih =>
    simp only [forLines, List.mem_append] at h
    rcases h with h | h
    · exact ⟨k, ln, h⟩
    · exact ih h

theorem filter_eq_nil_of_false {α : Type} {l : List α} {p : α → Bool}
    (h : ∀ a ∈ l, p a = false) : l.filter p = [] := by
  induction l with
  | nil => rfl
  | cons a t ih =>
    rw [List.filter_cons, h a (by simp)]
    exact ih (fun x hx => h x (by simp [hx]))

theorem false_of_filter_eq_nil {α : Type} {l : List α} {p : α → Bool}
    (h : l.filter p = []) : ∀ a ∈ l, p a = false := by
  intro a ha
  by_cases hp : p a = true
  · exact absurd (List.mem_filter.mpr ⟨ha, hp⟩) (by simp [h])
  · simpa using hp

theorem emitAll_eq_nil {α β : Type} {g : α → List β} {l : List α}
    (h : ∀ a ∈ l, g a = []) : emitAll g l = [] := by
  induction l with
  | nil => rfl
  | cons x rest ih =>
    simp only [emitAll, h x (by simp), List.nil_append]
    exact ih (fun a ha => h a (by simp [ha]))

theorem emitAll_filter {α β : Type} (p : β → Bool) (g : α → List β) (l : List α) :
    (emitAll g l).filter p = emitAll (fun a => (g a).filter p) l := by
  induction l with
  | nil => rfl
  | cons x rest ih => simp [emitAll, List.filter_append, ih]

/-- If exactly one file of `l` satisfies `q` (and it is `f`), and files failing
`q` contribute nothing after filtering, the filtered traversal is the filtered
contribution of `f`. -/
theorem filter_emitAll_unique {α : Type} {q : α → Bool} {p : Issue → Bool}
    {gen : α → List Issue} {l : List α} {f : α}
    (hl : l.filter q = [f])
    (hmiss : ∀ g, q g = false → (gen g).filter p = []) :
    (emitAll gen l).filter p = (gen f).filter p := by
  induction l with
  | nil => simp at hl
  | cons x rest ih =>
    rw [List.filter_cons] at hl
    by_cases hq : q x = true
    · rw [if_pos hq] at hl
      obtain ⟨rfl, hrest⟩ : x = f ∧ rest.filter q = [] := by
        constructor
        · exact (List.cons.injEq _ _ _ _ ▸ hl).1
        · exact (List.cons.injEq _ _ _ _ ▸ hl).2
      simp only [emitAll, List.filter_append]
      have hnil : (emitAll gen rest).filter p = [] := by
        rw [emitAll_filter]
        exact emitAll_eq_nil (fun a ha => hmiss a (false_of_filter_eq_nil hrest a ha))
      rw [hnil, List.append_nil]
    · rw [if_neg hq] at hl
      simp only [emitAll, List.filter_append]
      rw [hmiss x (by simpa using hq), List.nil_append]
      exact ih hl

/-! ### Lemmas about the count maps -/

theorem sumVals_tallyAdd (m : List (String × Nat)) (k : String) :
    sumVals (tallyAdd m k) = sumVals m + 1 := by
  induction m with
  | nil => rfl
  | cons kv rest ih =>
    obtain ⟨k', v⟩ := kv
    by_cases h : (k' == k) = true
    · simp [tallyAdd, h, sumVals]
      omega
    · simp only [tallyAdd, h, if_false, Bool.false_eq_true, sumVals, ih]
      omega

theorem sumVals_tallyFrom (m : List (String × Nat)) (ks : List String) :
    sumVals (tallyFrom m ks) = sumVals m + ks.length := by
  induction ks generalizing m with
  | nil => simp [tallyFrom]
  | cons k rest ih =>
    simp only [tallyFrom, ih, sumVals_tallyAdd, List.length_cons]
    omega

theorem sumVals_tally (ks : List String) : sumVals (tally ks) = ks.length := by
  simp [tally, sumVals_tallyFrom, sumVals]

theorem fst_mem_tallyAdd {m : List (String × Nat)} {k x : String}
    (h : x ∈ (tallyAdd m k).map Prod.fst) : x = k ∨ x ∈ m.map Prod.fst := by
  induction m with
  | nil =>
    simp [tallyAdd] at h
    exact Or.inl h
  | cons kv rest ih =>
    obtain ⟨k', v⟩ := kv
    by_cases hk : (k' == k) = true
    · rw [show tallyAdd ((k', v) :: rest) k = (k', v + 1) :: rest from by
        simp [tallyAdd, hk]] at h
      rw [List.map_cons, List.mem_cons] at h
      rcases h with rfl | h
      · right; rw [List.map_cons, List.mem_cons]; exact Or.inl rfl
      · right; rw [List.map_cons, List.mem_cons]; exact Or.inr h
    · rw [show tallyAdd ((k', v) :: rest) k = (k', v) :: tallyAdd rest k from by
        simp [tallyAdd, hk]] at h
      rw [List.map_cons, List.mem_cons] at h
      rcases h with rfl | h
      · right; rw [List.map_cons, List.mem_cons]; exact Or.inl rfl
      · rcases ih h with h' | h'
        · exact Or.inl h'
        · right; rw [List.map_cons, List.mem_cons]; exact Or.inr h'

theorem fst_mem_tallyFrom {m : List (String × Nat)} {ks : List String} {x : String}
    (h : x ∈ (tallyFrom m ks).map Prod.fst) : x ∈ ks ∨ x ∈ m.map Prod.fst := by
  induction ks generalizing m with
  | nil => exact Or.inr (by simpa [tallyFrom] using h)
  | cons k rest ih =>
    simp only [tallyFrom] at h
    rcases ih h with h' | h'
    · exact Or.inl (by simp [h'])
    · rcases fst_mem_tallyAdd h' with rfl | h''
      · exact Or.inl (by simp)
      · exact Or.inr h''

theorem fst_mem_tally {ks : List String} {x : String}
    (h : x ∈ (tally ks).map Prod.fst) : x ∈ ks := by
  rcases fst_mem_tallyFrom h with h' | h'
  · exact h'
  · simp at h'

theorem dictGet_tallyAdd_self (m : List (String × Nat)) (k : String) :
    dictGet (tallyAdd m k) k = dictGet m k + 1 := by
  induction m with
  | nil => simp [tallyAdd, dictGet]
  | cons kv rest ih =>
    obtain ⟨k', v⟩ := kv
    by_cases h : (k' == k) = true
    · simp [tallyAdd, h, dictGet]
    · simp [tallyAdd, h, dictGet, ih]

theorem dictGet_tallyAdd_other (m : List (String × Nat)) {k k' : String}
    (h : (k == k') = false) : dictGet (tallyAdd m k) k' = dictGet m k' := by
  induction m with
  | nil => simp [tallyAdd, dictGet, h]
  | cons kv rest ih =>
    obtain ⟨k'', v⟩ := kv
    by_cases hk : (k'' == k) = true
    · have : k'' = k := by simpa using hk
      subst this
      simp [tallyAdd, dictGet, h]
    · simp only [tallyAdd, hk, if_false, Bool.false_eq_true, dictGet]
      by_cases hk' : (k'' == k') = true
      · simp [hk']
      · simp [hk', ih]

theorem dictGet_tallyFrom (m : List (String × Nat)) (ks : List String) (k : String) :
    dictGet (tallyFrom m ks) k = dictGet m k + ks.countP (fun x => x == k) := by
  induction ks generalizing m with
  | nil => simp [tallyFrom]
  | cons x rest ih =>
    simp only [tallyFrom, ih, List.countP_cons]
    by_cases h : (x == k) = true
    · have : x = k := by simpa using h
      subst this
      rw [dictGet_tallyAdd_self]
      simp
      omega
    · rw [dictGet_tallyAdd_other m (by simpa using h)]
      simp [h]

theorem dictGet_tally (ks : List String) (k : String) :
    dictGet (tally ks) k = ks.countP (fun x => x == k) := by
  simp [tally, dictGet_tallyFrom, dictGet]

/-! ### C1 -/

/-- C1: for every review run, `total_issues` equals the number of issues,
which equals the sum of the per-severity counts and the sum of the
per-category counts, and each count mapping only has keys for severities /
categories occurring in the issue list. -/
theorem review_counts_consistent (fs : FileSystem) :
    (review fs).total_issues = (review fs).issues.length ∧
    sumVals (review fs).issues_by_severity = (review fs).total_issues ∧
    sumVals (review fs).issues_by_category = (review fs).total_issues ∧
    ((review fs).issues_by_severity.all
      (fun kv => (review fs).issues.any (fun i => i.severity == kv.1))) = true ∧
    ((review fs).issues_by_category.all
      (fun kv => (review fs).issues.any (fun i => i.category == kv.1))) = true := by
  refine ⟨rfl, ?_, ?_, ?_, ?_⟩
  · show sumVals (tally ((allIssues fs).map (fun i => i.severity))) = (allIssues fs).length
    rw [sumVals_tally, List.length_map]
  · show sumVals (tally ((allIssues fs).map (fun i => i.category))) = (allIssues fs).length
    rw [sumVals_tally, List.length_map]
  · rw [List.all_eq_true]
    intro kv hkv
    have hk : kv.1 ∈ (allIssues fs).map (fun i => i.severity) :=
      fst_mem_tally (List.mem_map_of_mem Prod.fst hkv)
    obtain ⟨i, hi, heq⟩ := List.mem_map.mp hk
    rw [List.any_eq_true]
    exact ⟨i, hi, by simp [heq]⟩
  · rw [List.all_eq_true]
    intro kv hkv
    have hk : kv.1 ∈ (allIssues fs).map (fun i => i.category) :=
      fst_mem_tally (List.mem_map_of_mem Prod.fst hkv)
    obtain ⟨i, hi, heq⟩ := List.mem_map.mp hk
    rw [List.any_eq_true]
    exact ⟨i, hi, by simp [heq]⟩

/-! ### C8 -/

/-- C8: the engine is deterministic — two runs over the same directory
snapshot (the embedding's whole input) produce the same result, issue lists
element for element; the embedded pipeline is a pure function of the
`FileSystem` value. -/
theorem review_deterministic (fs : FileSystem) :
    (reviewTwice fs).1.issues = (reviewTwice fs).2.issues ∧
    (reviewTwice fs).1 = (reviewTwice fs).2 :=
  ⟨rfl, rfl⟩

/-! ### C2 and C5 -/

/-- C2: reviewing an existing but completely empty root discovers no source
or configuration files, and the issue list is exactly the no-tests-directory
issue followed by the missing-README issue. -/
theorem empty_directory_review (fs : FileSystem)
    (hroot : fs.root_exists = true) (hfiles : fs.files = []) (hdirs : fs.dirs = []) :
    pythonFiles fs = [] ∧ configFiles fs = [] ∧
    (review fs).issues = [testsDirIssue, readmeIssue] ∧
    (review fs).total_issues = 2 := by
  have hpy : pythonFiles fs = [] := by simp [pythonFiles, hfiles]
  have hiss : allIssues fs = [testsDirIssue, readmeIssue] := by
    simp [allIssues, checkImports, checkHardcodedPaths, checkErrorHandling,
      checkLogging, checkTypeHints, checkDocstrings, checkThreadSafety,
      checkConfiguration, checkTestCoverage, checkDocumentation,
      checkHailoDependencies, hpy, emitAll, pathExists, hroot, hfiles, hdirs]
  refine ⟨hpy, by simp [configFiles, hfiles], hiss, ?_⟩
  show (allIssues fs).length = 2
  rw [hiss]
  rfl

/-- Closed witness for `empty_directory_review`. -/
def fsEmpty : FileSystem := ⟨"app", true, [], [], false, false⟩

theorem empty_directory_review_witness :
    pythonFiles fsEmpty = [] ∧ configFiles fsEmpty = [] ∧
    (review fsEmpty).issues = [testsDirIssue, readmeIssue] ∧
    (review fsEmpty).total_issues = 2 :=
  empty_directory_review fsEmpty rfl rfl rfl

/-- C5: a nonexistent root is not an error: discovery returns an empty
inventory and the run completes with the all-files-missing result (exactly
the two missing-file issues). -/
theorem missing_root_soft_failure (fs : FileSystem)
    (hroot : fs.root_exists = false) :
    pythonFiles fs = [] ∧ configFiles fs = [] ∧
    (review fs).issues = [testsDirIssue, readmeIssue] ∧
    (review fs).total_issues = 2 := by
  have hpy : pythonFiles fs = [] := by simp [pythonFiles, hroot]
  have hiss : allIssues fs = [testsDirIssue, readmeIssue] := by
    simp [allIssues, checkImports, checkHardcodedPaths, checkErrorHandling,
      checkLogging, checkTypeHints, checkDocstrings, checkThreadSafety,
      checkConfiguration, checkTestCoverage, checkDocumentation,
      checkHailoDependencies, hpy, emitAll, pathExists, hroot]
  refine ⟨hpy, by simp [configFiles, hroot], hiss, ?_⟩
  show (allIssues fs).length = 2
  rw [hiss]
  rfl

/-- Closed witness for `missing_root_soft_failure`. -/
def fsMissing : FileSystem :=
  ⟨"gone", false, [⟨["a.py"], some "print(1)", none⟩], [["tests"]], false, false⟩

theorem missing_root_soft_failure_witness :
    pythonFiles fsMissing = [] ∧ configFiles fsMissing = [] ∧
    (review fsMissing).issues = [testsDirIssue, readmeIssue] ∧
    (review fsMissing).total_issues = 2 :=
  missing_root_soft_failure fsMissing rfl

/-! ### C7 -/

/-- C7: when the final issue list has a CRITICAL issue, the summary reports
the CRITICAL count and the recommendations contain the
fix-before-deployment item; when the issue list is empty, the summary is the
fixed clean-bill message and the recommendations are empty. -/
theorem summary_critical_and_clean (fs : FileSystem) :
    ((∃ i ∈ (review fs).issues, i.severity = "CRITICAL") →
      (review fs).summary =
        "CRITICAL: " ++
          toString ((review fs).issues.countP (fun i => i.severity == "CRITICAL")) ++
          " critical issues found. Immediate attention required." ∧
      "Fix all CRITICAL issues before deployment" ∈ (review fs).recommendations) ∧
    ((review fs).issues = [] →
      (review fs).summary = "No issues found. Application looks good!" ∧
      (review fs).recommendations = []) := by
  have hget : dictGet (tally ((allIssues fs).map (fun i => i.severity))) "CRITICAL"
      = (allIssues fs).countP (fun i => i.severity == "CRITICAL") := by
    rw [dictGet_tally, List.countP_map]
    rfl
  constructor
  · intro hex
    have hpos : 0 < (allIssues fs).countP (fun i => i.severity == "CRITICAL") := by
      rw [List.countP_pos_iff]
      obtain ⟨i, hi, hsev⟩ := hex
      exact ⟨i, hi, by simp [hsev]⟩
    constructor
    · show (generateResult fs.root (allIssues fs)).summary = _
      simp only [generateResult, hget]
      rw [if_pos hpos]
      rfl
    · show _ ∈ (generateResult fs.root (allIssues fs)).recommendations
      simp only [generateResult, hget]
      rw [if_pos hpos]
      simp
  · intro hnil
    have hnil' : allIssues fs = [] := hnil
    constructor
    · show (generateResult fs.root (allIssues fs)).summary = _
      rw [hnil']
      rfl
    · show (generateResult fs.root (allIssues fs)).recommendations = []
      rw [hnil']
      rfl

/-- A run with one CRITICAL issue (a hardcoded absolute path): witness
input for the CRITICAL half of C7. -/
def fsCritical : FileSystem :=
  ⟨"app", true, [⟨["a.py"], some "x = \"/home\"", none⟩], [], false, false⟩

/-- A run with zero issues: witness input for the clean half of C7. -/
def fsClean : FileSystem :=
  ⟨"app", true,
    [⟨["README.md"], some "", none⟩, ⟨["tests", "test_a.py"], some "", some ⟨true, [], []⟩⟩],
    [["tests"]], false, false⟩

theorem summary_critical_and_clean_witness :
    ((review fsCritical).summary =
      "CRITICAL: " ++
        toString ((review fsCritical).issues.countP (fun i => i.severity == "CRITICAL")) ++
        " critical issues found. Immediate attention required." ∧
      "Fix all CRITICAL issues before deployment" ∈ (review fsCritical).recommendations) ∧
    ((review fsClean).summary = "No issues found. Application looks good!" ∧
      (review fsClean).recommendations = []) :=
  ⟨(summary_critical_and_clean fsCritical).1 (by decide),
   (summary_critical_and_clean fsClean).2 (by decide)⟩

/-! ### C9 -/

/-- C9: any output-format string other than `"json"` and `"markdown"` (the
empty string, misspellings, anything) selects the plain-text encoding, and
`review_application` is total. -/
theorem review_application_default_text (fs : FileSystem) (fmt : String)
    (h1 : fmt ≠ "json") (h2 : fmt ≠ "markdown") :
    review_application fs fmt = formatText (review fs) := by
  have b1 : (fmt == "json") = false := beq_eq_false_iff_ne.mpr h1
  have b2 : (fmt == "markdown") = false := beq_eq_false_iff_ne.mpr h2
  simp [review_application, b1, b2]

theorem review_application_default_text_witness :
    review_application fsEmpty "markdwon" = formatText (review fsEmpty) :=
  review_application_default_text fsEmpty "markdwon" (by decide) (by decide)

/-! ### Field facts about the issues each check can emit -/

theorem mem_checkImportsFile {root : String} {f : SrcFile} {i : Issue}
    (h : i ∈ checkImportsFile root f) :
    i.category = "BUG" ∧
    i.description = "Typo in module name: 'coffe_master' should be 'coffee_master'" ∧
    i.file_path = relPath f := by
  unfold checkImportsFile at h
  cases hfc : f.content with
  | none => rw [hfc] at h; simp at h
  | some c =>
    rw [hfc] at h
    obtain ⟨j, ln, hj⟩ := mem_forLines h
    unfold importLine at hj
    split at hj
    · simp at hj
      subst hj
      exact ⟨rfl, rfl, rfl⟩
    · simp at hj

theorem checkImports_fields {fs : FileSystem} {i : Issue} (h : i ∈ checkImports fs) :
    i.category = "BUG" ∧
    i.description = "Typo in module name: 'coffe_master' should be 'coffee_master'" := by
  obtain ⟨f, -, hf⟩ := mem_emitAll h
  exact ⟨(mem_checkImportsFile hf).1, (mem_checkImportsFile hf).2.1⟩

theorem mem_checkHardcodedPathsFile {root : String} {f : SrcFile} {i : Issue}
    (h : i ∈ checkHardcodedPathsFile root f) :
    i.category = "BUG" ∧ i.description = "Hardcoded absolute path detected" ∧
    i.file_path = relPath f := by
  unfold checkHardcodedPathsFile at h
  cases hfc : f.content with
  | none => rw [hfc] at h; simp at h
  | some c =>
    rw [hfc] at h
    obtain ⟨j, ln, hj⟩ := mem_forLines h
    unfold hardcodedLine at hj
    split at hj
    · simp at hj
      subst hj
      exact ⟨rfl, rfl, rfl⟩
    · simp at hj

theorem checkHardcodedPaths_fields {fs : FileSystem} {i : Issue}
    (h : i ∈ checkHardcodedPaths fs) :
    i.category = "BUG" ∧ i.description = "Hardcoded absolute path detected" := by
  obtain ⟨f, -, hf⟩ := mem_emitAll h
  exact ⟨(mem_checkHardcodedPathsFile hf).1, (mem_checkHardcodedPathsFile hf).2.1⟩

theorem mem_checkErrorHandlingFile {f : SrcFile} {i : Issue}
    (h : i ∈ checkErrorHandlingFile f) :
    i.severity = "HIGH" ∧ i.category = "CODE_QUALITY" ∧
    i.description = "Bare except clause detected" ∧ i.file_path = relPath f := by
  unfold checkErrorHandlingFile at h
  cases hfc : f.content with
  | none => rw [hfc] at h; simp at h
  | some c =>
    rw [hfc] at h
    cases hfa : f.ast with
    | none => rw [hfa] at h; simp at h
    | some a =>
      rw [hfa] at h
      obtain ⟨hd, -, hh⟩ := mem_emitAll h
      unfold bareExceptHandler at hh
      split at hh
      · simp at hh
      · simp at hh
        subst hh
        exact ⟨rfl, rfl, rfl, rfl⟩

theorem checkErrorHandling_fields {fs : FileSystem} {i : Issue}
    (h : i ∈ checkErrorHandling fs) :
    i.severity = "HIGH" ∧ i.category = "CODE_QUALITY" ∧
    i.description = "Bare except clause detected" := by
  obtain ⟨f, -, hf⟩ := mem_emitAll h
  exact ⟨(mem_checkErrorHandlingFile hf).1, (mem_checkErrorHandlingFile hf).2.1,
    (mem_checkErrorHandlingFile hf).2.2.1⟩

theorem mem_checkLoggingFile {root : String} {f : SrcFile} {i : Issue}
    (h : i ∈ checkLoggingFile root f) :
    i.category = "CODE_QUALITY" ∧
    i.description = "Print statement found instead of logging" ∧
    i.recommendation = some "Replace with logger.info/debug/error" ∧
    i.file_path = relPath f := by
  unfold checkLoggingFile at h
  cases hfc : f.content with
  | none => rw [hfc] at h; simp at h
  | some c =>
    rw [hfc] at h
    obtain ⟨j, ln, hj⟩ := mem_forLines h
    unfold printLine at hj
    split at hj
    · simp at hj
      subst hj
      exact ⟨rfl, rfl, rfl, rfl⟩
    · simp at hj

theorem checkLogging_fields {fs : FileSystem} {i : Issue} (h : i ∈ checkLogging fs) :
    i.category = "CODE_QUALITY" ∧
    i.description = "Print statement found instead of logging" ∧
    i.recommendation = some "Replace with logger.info/debug/error" := by
  obtain ⟨f, -, hf⟩ := mem_emitAll h
  exact ⟨(mem_checkLoggingFile hf).1, (mem_checkLoggingFile hf).2.1,
    (mem_checkLoggingFile hf).2.2.1⟩

theorem mem_checkTypeHintsFile {root : String} {f : SrcFile} {i : Issue}
    (h : i ∈ checkTypeHintsFile root f) :
    i.severity = "LOW" ∧ i.category = "CODE_QUALITY" ∧
    i.recommendation = some "Add type hints for parameters and return type" := by
  unfold checkTypeHintsFile at h
  cases hfc : f.content with
  | none => rw [hfc] at h; simp at h
  | some c =>
    rw [hfc] at h
    cases hfa : f.ast with
    | none => rw [hfa] at h; simp at h
    | some a =>
      rw [hfa] at h
      obtain ⟨fd, -, hfd⟩ := mem_emitAll h
      unfold typeHintFunc at hfd
      split at hfd
      · simp at hfd
      · split at hfd
        · split at hfd
          · simp at hfd
            subst hfd
            exact ⟨rfl, rfl, rfl⟩
          · simp at hfd
        · simp at hfd

theorem checkTypeHints_fields {fs : FileSystem} {i : Issue} (h : i ∈ checkTypeHints fs) :
    i.severity = "LOW" ∧ i.category = "CODE_QUALITY" ∧
    i.recommendation = some "Add type hints for parameters and return type" := by
  obtain ⟨f, -, hf⟩ := mem_emitAll h
  exact mem_checkTypeHintsFile hf

theorem mem_checkDocstringsFile {root : String} {f : SrcFile} {i : Issue}
    (h : i ∈ checkDocstringsFile root f) :
    i.severity = "LOW" ∧ i.category = "DOCUMENTATION" := by
  unfold checkDocstringsFile at h
  cases hfc : f.content with
  | none => rw [hfc] at h; simp at h
  | some c =>
    rw [hfc] at h
    cases hfa : f.ast with
    | none => rw [hfa] at h; simp at h
    | some a =>
      rw [hfa] at h
      rw [List.mem_append] at h
      rcases h with h | h
      · split at h
        · simp at h
          subst h
          exact ⟨rfl, rfl⟩
        · simp at h
      · obtain ⟨fd, -, hfd⟩ := mem_emitAll h
        unfold docstringFunc at hfd
        split at hfd
        · simp at hfd
        · split at hfd
          · simp at hfd
            subst hfd
            exact ⟨rfl, rfl⟩
          · simp at hfd

theorem checkDocstrings_fields {fs : FileSystem} {i : Issue}
    (h : i ∈ checkDocstrings fs) :
    i.severity = "LOW" ∧ i.category = "DOCUMENTATION" := by
  obtain ⟨f, -, hf⟩ := mem_emitAll h
  exact mem_checkDocstringsFile hf

theorem mem_checkThreadSafetyFile {root : String} {f : SrcFile} {i : Issue}
    (h : i ∈ checkThreadSafetyFile root f) :
    i.category = "BUG" ∧
    i.description = "File I/O operations without thread-safety mechanisms" := by
  unfold checkThreadSafetyFile at h
  cases hfc : f.content with
  | none => rw [hfc] at h; simp at h
  | some c =>
    rw [hfc] at h
    simp at h
    obtain ⟨-, rfl⟩ := h
    exact ⟨rfl, rfl⟩

theorem checkThreadSafety_fields {fs : FileSystem} {i : Issue}
    (h : i ∈ checkThreadSafety fs) :
    i.category = "BUG" ∧
    i.description = "File I/O operations without thread-safety mechanisms" := by
  obtain ⟨f, -, hf⟩ := mem_emitAll h
  exact mem_checkThreadSafetyFile hf

theorem mem_configValuesFile {f : SrcFile} {i : Issue} (h : i ∈ configValuesFile f) :
    i.category = "ARCHITECTURE" ∧ i.description = "Hardcoded configuration values" := by
  unfold configValuesFile at h
  cases hfc : f.content with
  | none => rw [hfc] at h; simp at h
  | some c =>
    rw [hfc] at h
    simp at h
    obtain ⟨-, rfl⟩ := h
    exact ⟨rfl, rfl⟩

theorem checkConfiguration_fields {fs : FileSystem} {i : Issue}
    (h : i ∈ checkConfiguration fs) :
    i.category = "ARCHITECTURE" ∧ i.description = "Hardcoded configuration values" := by
  unfold checkConfiguration at h
  split at h
  · simp at h
  · obtain ⟨f, -, hf⟩ := mem_emitAll h
    exact mem_configValuesFile hf

theorem mem_checkTestCoverage {fs : FileSystem} {i : Issue}
    (h : i ∈ checkTestCoverage fs) : i = testsDirIssue ∨ i = noTestFilesIssue := by
  unfold checkTestCoverage at h
  split at h
  · simp at h
    exact Or.inl h
  · split at h
    · simp at h
      exact Or.inr h
    · simp at h

theorem mem_checkDocumentation {fs : FileSystem} {i : Issue}
    (h : i ∈ checkDocumentation fs) : i = readmeIssue := by
  unfold checkDocumentation at h
  split at h
  · simp at h
  · simpa using h

theorem mem_checkHailoDependencies {fs : FileSystem} {i : Issue}
    (h : i ∈ checkHailoDependencies fs) : i = hailoIssue ∨ i = hailoAppsIssue := by
  unfold checkHailoDependencies at h
  rw [List.mem_append] at h
  rcases h with h | h
  · split at h
    · simp at h
      exact Or.inl h
    · simp at h
  · split at h
    · simp at h
      exact Or.inr h
    · simp at h

/-! ### C10 -/

/-- A TESTING-category issue. -/
def isTestingIssue (i : Issue) : Bool := i.category == "TESTING"

theorem filter_testing_eq (fs : FileSystem) :
    (allIssues fs).filter isTestingIssue = (checkTestCoverage fs).filter isTestingIssue := by
  have h1 : (checkImports fs).filter isTestingIssue = [] :=
    filter_eq_nil_of_false (fun i hi => by
      have hx := checkImports_fields hi
      simp [isTestingIssue, hx.1])
  have h2 : (checkHardcodedPaths fs).filter isTestingIssue = [] :=
    filter_eq_nil_of_false (fun i hi => by
      have hx := checkHardcodedPaths_fields hi
      simp [isTestingIssue, hx.1])
  have h3 : (checkErrorHandling fs).filter isTestingIssue = [] :=
    filter_eq_nil_of_false (fun i hi => by
      have hx := checkErrorHandling_fields hi
      simp [isTestingIssue, hx.2.1])
  have h4 : (checkLogging fs).filter isTestingIssue = [] :=
    filter_eq_nil_of_false (fun i hi => by
      have hx := checkLogging_fields hi
      simp [isTestingIssue, hx.1])
  have h5 : (checkTypeHints fs).filter isTestingIssue = [] :=
    filter_eq_nil_of_false (fun i hi => by
      have hx := checkTypeHints_fields hi
      simp [isTestingIssue, hx.2.1])
  have h6 : (checkDocstrings fs).filter isTestingIssue = [] :=
    filter_eq_nil_of_false (fun i hi => by
      have hx := checkDocstrings_fields hi
      simp [isTestingIssue, hx.2])
  have h7 : (checkThreadSafety fs).filter isTestingIssue = [] :=
    filter_eq_nil_of_false (fun i hi => by
      have hx := checkThreadSafety_fields hi
      simp [isTestingIssue, hx.1])
  have h8 : (checkConfiguration fs).filter isTestingIssue = [] :=
    filter_eq_nil_of_false (fun i hi => by
      have hx := checkConfiguration_fields hi
      simp [isTestingIssue, hx.1])
  have h10 : (checkDocumentation fs).filter isTestingIssue = [] :=
    filter_eq_nil_of_false (fun i hi => by
      rw [mem_checkDocumentation hi]
      decide)
  have h11 : (checkHailoDependencies fs).filter isTestingIssue = [] :=
    filter_eq_nil_of_false (fun i hi => by
      rcases mem_checkHailoDependencies hi with rfl | rfl <;> decide)
  simp [allIssues, List.filter_append, h1, h2, h3, h4, h5, h6, h7, h8, h10, h11]

/-- C10: a run emits at most one TESTING issue (the two branches of the test
coverage check are mutually exclusive), every TESTING issue is MEDIUM with
file path `tests/` and no line number, and a tests directory holding at least
one `test_*.py` file yields no TESTING issue. -/
theorem testing_issue_invariant (fs : FileSystem) :
    (((review fs).issues.filter isTestingIssue).length ≤ 1) ∧
    (((review fs).issues.all (fun i =>
        !(isTestingIssue i) ||
        (i.severity == "MEDIUM" && i.file_path == "tests/" &&
          i.line_number == none))) = true) ∧
    (pathExists fs ["tests"] = true → testGlob fs ≠ [] →
      (review fs).issues.filter isTestingIssue = []) := by
  have hfilter : (review fs).issues.filter isTestingIssue
      = (checkTestCoverage fs).filter isTestingIssue := filter_testing_eq fs
  refine ⟨?_, ?_, ?_⟩
  · rw [hfilter]
    unfold checkTestCoverage
    split
    · decide
    · split
      · decide
      · decide
  · rw [List.all_eq_true]
    intro i hi
    have hi' : i ∈ allIssues fs := hi
    simp only [allIssues, List.mem_append] at hi'
    rcases hi' with ((((((((((h | h) | h) | h) | h) | h) | h) | h) | h) | h) | h)
    · have hx := checkImports_fields h
      simp [isTestingIssue, hx.1]
    · have hx := checkHardcodedPaths_fields h
      simp [isTestingIssue, hx.1]
    · have hx := checkErrorHandling_fields h
      simp [isTestingIssue, hx.2.1]
    · have hx := checkLogging_fields h
      simp [isTestingIssue, hx.1]
    · have hx := checkTypeHints_fields h
      simp [isTestingIssue, hx.2.1]
    · have hx := checkDocstrings_fields h
      simp [isTestingIssue, hx.2]
    · have hx := checkThreadSafety_fields h
      simp [isTestingIssue, hx.1]
    · have hx := checkConfiguration_fields h
      simp [isTestingIssue, hx.1]
    · rcases mem_checkTestCoverage h with rfl | rfl <;> decide
    · rw [mem_checkDocumentation h]
      decide
    · rcases mem_checkHailoDependencies h with rfl | rfl <;> decide
  · intro hex hglob
    rw [hfilter]
    unfold checkTestCoverage
    rw [if_neg (by simp [hex])]
    rw [if_neg (by simpa using hglob)]
    rfl

/-- Closed witness for `testing_issue_invariant`: a populated tests directory
yields no TESTING issue. -/
theorem testing_issue_invariant_witness :
    (review fsClean).issues.filter isTestingIssue = [] :=
  (testing_issue_invariant fsClean).2.2 (by decide) (by decide)

/-! ### C3 -/

/-- A HIGH / CODE_QUALITY bare-except issue reported against the file with
relative path `rp`. -/
def isBareExceptFor (rp : String) (i : Issue) : Bool :=
  i.severity == "HIGH" && i.category == "CODE_QUALITY" &&
  i.description == "Bare except clause detected" && i.file_path == rp

theorem checkErrorHandlingFile_filter_ne {f g : SrcFile}
    (h : (relPath g == relPath f) = false) :
    (checkErrorHandlingFile g).filter (isBareExceptFor (relPath f)) = [] :=
  filter_eq_nil_of_false (fun i hi => by
    have hx := mem_checkErrorHandlingFile hi
    simp [isBareExceptFor, hx.2.2.2, h])

theorem bare_count (f : SrcFile) (hs : List ExcHandler) :
    ((emitAll (bareExceptHandler f) hs).filter (isBareExceptFor (relPath f))).length
      = hs.countP (fun h => !h.hasType) := by
  induction hs with
  | nil => rfl
  | cons h rest ih =>
    rw [show emitAll (bareExceptHandler f) (h :: rest)
        = bareExceptHandler f h ++ emitAll (bareExceptHandler f) rest from rfl]
    rw [List.filter_append, List.length_append, ih, List.countP_cons]
    unfold bareExceptHandler
    by_cases hh : h.hasType = true
    · simp [hh]
    · have hhf : h.hasType = false := by simpa using hh
      have hp : isBareExceptFor (relPath f) (bareExceptIssue f h.lineno) = true := by
        simp [isBareExceptFor, bareExceptIssue]
      simp [hhf, hp, Nat.add_comm]

/-- C3: for every discovered source file that reads and parses, the review
emits exactly one HIGH / CODE_QUALITY bare-except issue per
exception-handling clause with no declared type, regardless of the rest of
the file: counting such issues in the final result gives exactly the number
of untyped handlers. -/
theorem bare_except_issue_count (fs : FileSystem) (f : SrcFile) (a : PyAst)
    (huniq : (pythonFiles fs).filter (fun g => relPath g == relPath f) = [f])
    (hc : f.content.isSome = true) (ha : f.ast = some a) :
    ((review fs).issues.filter (isBareExceptFor (relPath f))).length
      = a.handlers.countP (fun h => !h.hasType) := by
  have h1 : (checkImports fs).filter (isBareExceptFor (relPath f)) = [] :=
    filter_eq_nil_of_false (fun i hi => by
      have hx := checkImports_fields hi
      simp [isBareExceptFor, hx.2])
  have h2 : (checkHardcodedPaths fs).filter (isBareExceptFor (relPath f)) = [] :=
    filter_eq_nil_of_false (fun i hi => by
      have hx := checkHardcodedPaths_fields hi
      simp [isBareExceptFor, hx.2])
  have h4 : (checkLogging fs).filter (isBareExceptFor (relPath f)) = [] :=
    filter_eq_nil_of_false (fun i hi => by
      have hx := checkLogging_fields hi
      simp [isBareExceptFor, hx.2.1])
  have h5 : (checkTypeHints fs).filter (isBareExceptFor (relPath f)) = [] :=
    filter_eq_nil_of_false (fun i hi => by
      have hx := checkTypeHints_fields hi
      simp [isBareExceptFor, hx.1])
  have h6 : (checkDocstrings fs).filter (isBareExceptFor (relPath f)) = [] :=
    filter_eq_nil_of_false (fun i hi => by
      have hx := checkDocstrings_fields hi
      simp [isBareExceptFor, hx.1])
  have h7 : (checkThreadSafety fs).filter (isBareExceptFor (relPath f)) = [] :=
    filter_eq_nil_of_false (fun i hi => by
      have hx := checkThreadSafety_fields hi
      simp [isBareExceptFor, hx.2])
  have h8 : (checkConfiguration fs).filter (isBareExceptFor (relPath f)) = [] :=
    filter_eq_nil_of_false (fun i hi => by
      have hx := checkConfiguration_fields hi
      simp [isBareExceptFor, hx.2])
  have h9 : (checkTestCoverage fs).filter (isBareExceptFor (relPath f)) = [] :=
    filter_eq_nil_of_false (fun i hi => by
      rcases mem_checkTestCoverage hi with rfl | rfl <;>
        simp [isBareExceptFor, testsDirIssue, noTestFilesIssue])
  have h10 : (checkDocumentation fs).filter (isBareExceptFor (relPath f)) = [] :=
    filter_eq_nil_of_false (fun i hi => by
      rw [mem_checkDocumentation hi]
      simp [isBareExceptFor, readmeIssue])
  have h11 : (checkHailoDependencies fs).filter (isBareExceptFor (relPath f)) = [] :=
    filter_eq_nil_of_false (fun i hi => by
      rcases mem_checkHailoDependencies hi with rfl | rfl <;>
        simp [isBareExceptFor, hailoIssue, hailoAppsIssue])
  have hmain : (allIssues fs).filter (isBareExceptFor (relPath f))
      = (checkErrorHandling fs).filter (isBareExceptFor (relPath f)) := by
    simp [allIssues, List.filter_append, h1, h2, h4, h5, h6, h7, h8, h9, h10, h11]
  show ((allIssues fs).filter (isBareExceptFor (relPath f))).length = _
  rw [hmain]
  rw [show checkErrorHandling fs = emitAll checkErrorHandlingFile (pythonFiles fs) from rfl]
  rw [filter_emitAll_unique huniq (fun g hg => checkErrorHandlingFile_filter_ne hg)]
  obtain ⟨c, hcc⟩ := Option.isSome_iff_exists.mp hc
  unfold checkErrorHandlingFile
  rw [hcc, ha]
  exact bare_count f a.handlers

/-- Witness input for C3: one file with one untyped exception handler. -/
def fileBare : SrcFile :=
  ⟨["a.py"], some "try: pass", some ⟨true, [⟨false, 3⟩], []⟩⟩

/-- Witness filesystem for C3. -/
def fsBare : FileSystem := ⟨"app", true, [fileBare], [], false, false⟩

theorem bare_except_issue_count_witness :
    ((review fsBare).issues.filter (isBareExceptFor (relPath fileBare))).length = 1 :=
  (bare_except_issue_count fsBare fileBare ⟨true, [⟨false, 3⟩], []⟩
    (by decide) rfl rfl).trans (by decide)

/-! ### C4 -/

/-- A console-print CODE_QUALITY issue reported against the file with
relative path `rp` at line `k`. -/
def isPrintIssueFor (rp : String) (k : Nat) (i : Issue) : Bool :=
  i.category == "CODE_QUALITY" &&
  i.description == "Print statement found instead of logging" &&
  i.recommendation == some "Replace with logger.info/debug/error" &&
  i.file_path == rp && i.line_number == some k

theorem checkLoggingFile_filter_ne {root : String} {f g : SrcFile} {k : Nat}
    (h : (relPath g == relPath f) = false) :
    (checkLoggingFile root g).filter (isPrintIssueFor (relPath f) k) = [] :=
  filter_eq_nil_of_false (fun i hi => by
    have hx := mem_checkLoggingFile hi
    simp [isPrintIssueFor, hx.2.2.2, h])

theorem printLines_filter_out {root : String} {f : SrcFile} {hl : Bool} {k : Nat}
    (ls : List String) (j : Nat) (hj : k < j) :
    (forLines (printLine root f hl) j ls).filter (isPrintIssueFor (relPath f) k) = [] := by
  induction ls generalizing j with
  | nil => rfl
  | cons ln rest ih =>
    rw [show forLines (printLine root f hl) j (ln :: rest)
        = printLine root f hl j ln ++ forLines (printLine root f hl) (j + 1) rest from rfl]
    rw [List.filter_append]
    have hhead : (printLine root f hl j ln).filter (isPrintIssueFor (relPath f) k) = [] := by
      unfold printLine
      split
      · have hjk : (some j == some k) = false := by
          simp only [beq_eq_false_iff_ne, ne_eq, Option.some.injEq]
          omega
        simp [isPrintIssueFor, printIssue, hjk]
      · rfl
    rw [hhead, List.nil_append]
    exact ih (j + 1) (Nat.lt_succ_of_lt hj)

theorem printLines_filter_at {root : String} {f : SrcFile} {hl : Bool} {k : Nat}
    {ln : String} (ls : List String) (j : Nat) (hkj : j ≤ k)
    (hget : ls.get? (k - j) = some ln)
    (hcond : (strStartsWith (strTrim ln) "print(" &&
      !(strContains (lowerStr (pathStr root f)) "test")) = true) :
    (forLines (printLine root f hl) j ls).filter (isPrintIssueFor (relPath f) k)
      = [printIssue f hl k ln] := by
  induction ls generalizing j with
  | nil => simp at hget
  | cons l0 rest ih =>
    rw [show forLines (printLine root f hl) j (l0 :: rest)
        = printLine root f hl j l0 ++ forLines (printLine root f hl) (j + 1) rest from rfl]
    rw [List.filter_append]
    by_cases hjk : j = k
    · subst hjk
      rw [Nat.sub_self] at hget
      have hl0 : l0 = ln := by simpa using hget
      subst hl0
      have hhead : (printLine root f hl j l0).filter (isPrintIssueFor (relPath f) j)
          = [printIssue f hl j l0] := by
        unfold printLine
        rw [if_pos hcond]
        have hp : isPrintIssueFor (relPath f) j (printIssue f hl j l0) = true := by
          simp [isPrintIssueFor, printIssue]
        simp [hp]
      rw [hhead, printLines_filter_out rest (j + 1) (Nat.lt_succ_self j), List.append_nil]
    · have hlt : j < k := lt_of_le_of_ne hkj hjk
      have hhead : (printLine root f hl j l0).filter (isPrintIssueFor (relPath f) k)
          = [] := by
        unfold printLine
        split
        · have hjk' : (some j == some k) = false := by
            simp only [beq_eq_false_iff_ne, ne_eq, Option.some.injEq]
            omega
          simp [isPrintIssueFor, printIssue, hjk']
        · rfl
      rw [hhead, List.nil_append]
      apply ih (j + 1) hlt
      rw [show k - j = (k - (j + 1)) + 1 from by omega] at hget
      simpa using hget

/-- C4: for every discovered source file whose path does not mark it as a
test file, a line whose trimmed text begins with `print(` produces exactly one
CODE_QUALITY console-print issue carrying that 1-based line number; its
severity is HIGH when the file has no logging import and MEDIUM otherwise. -/
theorem print_issue_at_line (fs : FileSystem) (f : SrcFile) (c : String) (k : Nat)
    (ln : String)
    (huniq : (pythonFiles fs).filter (fun g => relPath g == relPath f) = [f])
    (hc : f.content = some c) (hk : 1 ≤ k)
    (hln : (splitLines c).get? (k - 1) = some ln)
    (hprint : strStartsWith (strTrim ln) "print(" = true)
    (htest : strContains (lowerStr (pathStr fs.root f)) "test" = false) :
    (review fs).issues.filter (isPrintIssueFor (relPath f) k)
      = [printIssue f (hasLoggingIn c) k ln] ∧
    (printIssue f (hasLoggingIn c) k ln).severity
      = (if hasLoggingIn c then "MEDIUM" else "HIGH") := by
  refine ⟨?_, rfl⟩
  have h1 : (checkImports fs).filter (isPrintIssueFor (relPath f) k) = [] :=
    filter_eq_nil_of_false (fun i hi => by
      have hx := checkImports_fields hi
      simp [isPrintIssueFor, hx.2])
  have h2 : (checkHardcodedPaths fs).filter (isPrintIssueFor (relPath f) k) = [] :=
    filter_eq_nil_of_false (fun i hi => by
      have hx := checkHardcodedPaths_fields hi
      simp [isPrintIssueFor, hx.2])
  have h3 : (checkErrorHandling fs).filter (isPrintIssueFor (relPath f) k) = [] :=
    filter_eq_nil_of_false (fun i hi => by
      have hx := checkErrorHandling_fields hi
      simp [isPrintIssueFor, hx.2.2])
  have h5 : (checkTypeHints fs).filter (isPrintIssueFor (relPath f) k) = [] :=
    filter_eq_nil_of_false (fun i hi => by
      have hx := checkTypeHints_fields hi
      simp [isPrintIssueFor, hx.2.2])
  have h6 : (checkDocstrings fs).filter (isPrintIssueFor (relPath f) k) = [] :=
    filter_eq_nil_of_false (fun i hi => by
      have hx := checkDocstrings_fields hi
      simp [isPrintIssueFor, hx.2])
  have h7 : (checkThreadSafety fs).filter (isPrintIssueFor (relPath f) k) = [] :=
    filter_eq_nil_of_false (fun i hi => by
      have hx := checkThreadSafety_fields hi
      simp [isPrintIssueFor, hx.1])
  have h8 : (checkConfiguration fs).filter (isPrintIssueFor (relPath f) k) = [] :=
    filter_eq_nil_of_false (fun i hi => by
      have hx := checkConfiguration_fields hi
      simp [isPrintIssueFor, hx.1])
  have h9 : (checkTestCoverage fs).filter (isPrintIssueFor (relPath f) k) = [] :=
    filter_eq_nil_of_false (fun i hi => by
      rcases mem_checkTestCoverage hi with rfl | rfl <;>
        simp [isPrintIssueFor, testsDirIssue, noTestFilesIssue])
  have h10 : (checkDocumentation fs).filter (isPrintIssueFor (relPath f) k) = [] :=
    filter_eq_nil_of_false (fun i hi => by
      rw [mem_checkDocumentation hi]
      simp [isPrintIssueFor, readmeIssue])
  have h11 : (checkHailoDependencies fs).filter (isPrintIssueFor (relPath f) k) = [] :=
    filter_eq_nil_of_false (fun i hi => by
      rcases mem_checkHailoDependencies hi with rfl | rfl <;>
        simp [isPrintIssueFor, hailoIssue, hailoAppsIssue])
  have hmain : (allIssues fs).filter (isPrintIssueFor (relPath f) k)
      = (checkLogging fs).filter (isPrintIssueFor (relPath f) k) := by
    simp [allIssues, List.filter_append, h1, h2, h3, h5, h6, h7, h8, h9, h10, h11]
  show (allIssues fs).filter (isPrintIssueFor (relPath f) k) = _
  rw [hmain]
  rw [show checkLogging fs = emitAll (checkLoggingFile fs.root) (pythonFiles fs) from rfl]
  rw [filter_emitAll_unique huniq (fun g hg => checkLoggingFile_filter_ne hg)]
  unfold checkLoggingFile
  rw [hc]
  exact printLines_filter_at (splitLines c) 1 hk hln (by simp [hprint, htest])

/-- Witness input for C4: one file whose only line is a print call. -/
def filePrint : SrcFile := ⟨["a.py"], some "print(\"debug\")", none⟩

/-- Witness filesystem for C4. -/
def fsPrint : FileSystem := ⟨"app", true, [filePrint], [], false, false⟩

theorem print_issue_at_line_witness :
    (review fsPrint).issues.filter (isPrintIssueFor (relPath filePrint) 1)
      = [printIssue filePrint (hasLoggingIn "print(\"debug\")") 1 "print(\"debug\")"] ∧
    (printIssue filePrint (hasLoggingIn "print(\"debug\")") 1 "print(\"debug\")").severity
      = (if hasLoggingIn "print(\"debug\")" then "MEDIUM" else "HIGH") :=
  print_issue_at_line fsPrint filePrint "print(\"debug\")" 1 "print(\"debug\")"
    (by decide) rfl (by decide) (by decide) (by decide) (by decide)

/-! ### C6 -/

/-- An issue categorized as a bug. -/
def issueCatA : Issue :=
  ⟨"HIGH", "BUG", "a.py", some 1, "Issue text", some "Fix it", none⟩

/-- The same issue with category CODE_QUALITY instead. -/
def issueCatB : Issue :=
  ⟨"HIGH", "CODE_QUALITY", "a.py", some 1, "Issue text", some "Fix it", none⟩

/-- A result holding `issueCatA`. -/
def resultCatA : ReviewResult :=
  ⟨"app", 1, [("HIGH", 1)], [("BUG", 1)], [issueCatA], "Summary", []⟩

/-- A result holding `issueCatB`: differs from `resultCatA` only in the
issue's category and the category count map. -/
def resultCatB : ReviewResult :=
  ⟨"app", 1, [("HIGH", 1)], [("CODE_QUALITY", 1)], [issueCatB], "Summary", []⟩

set_option maxRecDepth 20000 in
/-- C6 counterexample: the three encodings are not mutually lossless. Two
distinct results — differing only in an issue's category — have distinct
structured encodings but identical plain-text and identical markdown
encodings, so an issue's category (recoverable from the structured encoding)
is not recoverable from the other two. -/
theorem format_lossless_counterexample :
    resultCatA ≠ resultCatB ∧
    reviewResultToJsonString resultCatA ≠ reviewResultToJsonString resultCatB ∧
    formatText resultCatA = formatText resultCatB ∧
    formatMarkdown resultCatA = formatMarkdown resultCatB :=
  ⟨by decide, by decide, by decide, by decide⟩

set_option maxRecDepth 20000 in
/-- C6 amended: the structured encoding exposes every field, while the
plain-text and markdown encodings drop issue categories (and the per-category
counts), so the encodings are not mutually lossless; the document encoding
does group issues under severity headings in the order CRITICAL, HIGH,
MEDIUM, LOW and renders any (nonempty) code excerpt as a fenced block. -/
theorem format_encoding_properties :
    (∃ r₁ r₂ : ReviewResult, r₁ ≠ r₂ ∧
      reviewResultToJsonString r₁ ≠ reviewResultToJsonString r₂ ∧
      formatText r₁ = formatText r₂ ∧ formatMarkdown r₁ = formatMarkdown r₂) ∧
    (∀ r : ReviewResult, mdLines r =
      mdHeaderLines r ++
        (mdSection r "CRITICAL" ++ (mdSection r "HIGH" ++
          (mdSection r "MEDIUM" ++ (mdSection r "LOW" ++ [])))) ++
        mdRecLines r) ∧
    (∀ (r : ReviewResult) (i : Issue) (s : String),
      i ∈ r.issues → i.severity ∈ (["CRITICAL", "HIGH", "MEDIUM", "LOW"] : List String) →
      i.code_snippet = some s → s ≠ "" →
      ("```python\n" ++ s ++ "\n```") ∈ mdLines r) := by
  refine ⟨⟨resultCatA, resultCatB, by decide, by decide, by decide, by decide⟩,
    fun r => rfl, ?_⟩
  intro r i s hi hsev hsnip hne
  have hfence : ("```python\n" ++ s ++ "\n```") ∈ mdIssueLines i := by
    simp [mdIssueLines, truthyText, hsnip, hne]
  have hsel : i ∈ r.issues.filter (fun x => x.severity == i.severity) :=
    List.mem_filter.mpr ⟨hi, by simp⟩
  have hne' : (r.issues.filter (fun x => x.severity == i.severity)).isEmpty = false := by
    cases hfe : r.issues.filter (fun x => x.severity == i.severity) with
    | nil => rw [hfe] at hsel; simp at hsel
    | cons a t => rfl
  have hsec : ("```python\n" ++ s ++ "\n```") ∈ mdSection r i.severity := by
    rw [show mdSection r i.severity
        = (if (r.issues.filter (fun x => x.severity == i.severity)).isEmpty then
            ([] : List String)
          else ["### " ++ i.severity ++ " Issues", ""] ++
            emitAll mdIssueLines (r.issues.filter (fun x => x.severity == i.severity)))
        from rfl]
    rw [hne']
    simp only [Bool.false_eq_true, if_false]
    rw [List.mem_append]
    exact Or.inr (mem_emitAll_of_mem hfence hsel)
  have hmem : ("```python\n" ++ s ++ "\n```")
      ∈ emitAll (mdSection r) ["CRITICAL", "HIGH", "MEDIUM", "LOW"] :=
    mem_emitAll_of_mem hsec hsev
  unfold mdLines
  rw [List.mem_append]
  exact Or.inl (by rw [List.mem_append]; exact Or.inr hmem)

/-- An issue carrying a code excerpt, for the fenced-block witness. -/
def issueSnip : Issue :=
  ⟨"HIGH", "BUG", "a.py", some 1, "Issue text", none, some "x = 1"⟩

/-- A result holding `issueSnip`. -/
def resultSnip : ReviewResult :=
  ⟨"app", 1, [("HIGH", 1)], [("BUG", 1)], [issueSnip], "Summary", []⟩

theorem format_encoding_properties_witness :
    ("```python\n" ++ "x = 1" ++ "\n```") ∈ mdLines resultSnip :=
  format_encoding_properties.2.2 resultSnip issueSnip "x = 1" (by decide) (by decide)
    rfl (by decide)

end AppReview
